import Mathlib

/-
Verification development for the tabular ingestion, classification,
normalization and allocation pipeline of the de-accreditation-docs
repository.  The definitions below are a shallow embedding of the
relevant functions of src/xlsx_to_maestro.py and
src/syllabus_generator.py; the theorems settle the frozen claims
about them.
-/

/-! ## Python string primitives used by the pipeline -/

/-- Whitespace predicate of Python (`str.strip`, `str.isspace`, regex `\s`). -/
def pyIsSpace (c : Char) : Bool :=
  let n := c.toNat
  n = 32 || (9 ≤ n && n ≤ 13) || n = 28 || n = 29 || n = 30 || n = 31 ||
  n = 133 || n = 160 || n = 5760 || (8192 ≤ n && n ≤ 8202) ||
  n = 8232 || n = 8233 || n = 8239 || n = 8287 || n = 12288

/-- ASCII decimal digit, the digits matched by the regex `\d` on the
inputs of the pipeline. -/
def pyIsDigit (c : Char) : Bool :=
  48 ≤ c.toNat && c.toNat ≤ 57

/-- Strip leading and trailing whitespace from a character list. -/
def pyStripList (l : List Char) : List Char :=
  ((l.dropWhile pyIsSpace).reverse.dropWhile pyIsSpace).reverse

/-- Python `str.strip()`. -/
def pyStrip (s : String) : String := ⟨pyStripList s.data⟩

/-- Python `str.lower()` restricted to the ASCII case mapping, which is
all the keyword matching in the source ever relies on. -/
def lowerStr (s : String) : String := ⟨s.data.map Char.toLower⟩

/-- Containment of a character sequence inside another, scanning left
to right, as Python `pat in s`. -/
def containsSeq (pat : List Char) : List Char → Bool
  | [] => pat.isEmpty
  | c :: t => pat.isPrefixOf (c :: t) || containsSeq pat t

/-- Python substring containment `pat in s`. -/
def pyIn (pat s : String) : Bool := containsSeq pat.data s.data

/-- Split a character list at every occurrence of a character, as
Python `s.split(c)`. -/
def splitOnChar (c : Char) : List Char → List (List Char)
  | [] => [[]]
  | x :: xs =>
    let r := splitOnChar c xs
    if x = c then [] :: r
    else
      match r with
      | [] => [[x]]
      | h :: t => (x :: h) :: t

/-- Break a character list at the first occurrence of a character,
returning the parts before and after it, as Python `s.split(c, 1)`. -/
def breakAtChar (c : Char) : List Char → Option (List Char × List Char)
  | [] => none
  | x :: xs =>
    if x = c then some ([], xs)
    else (breakAtChar c xs).map (fun p => (x :: p.1, p.2))

/-- Break a character list at the first occurrence of a non-empty
pattern, returning the parts before and after it. -/
def breakAtSub (pat : List Char) : List Char → Option (List Char × List Char)
  | [] => none
  | x :: xs =>
    if pat.isPrefixOf (x :: xs) then some ([], (x :: xs).drop pat.length)
    else (breakAtSub pat xs).map (fun p => (x :: p.1, p.2))

/-- The part of `s` strictly before the first occurrence of `pat`,
which is `s.split(pat)[0]` in Python. -/
def beforeFirstSub (pat s : String) : String :=
  match breakAtSub pat.data s.data with
  | some p => ⟨p.1⟩
  | none => s

/-! ## Configuration constants of src/xlsx_to_maestro.py -/

def SKIP_LESSON_KEYWORDS : List String :=
  ["Closing session", "Opening session", "Sync Session", "Weekly Review"]

def PRACTICE_SESSION_KEYWORDS : List String :=
  ["Practice Lesson", "Practice Session"]

def THEORY_PRACTICE_KEYWORD : String := "Theory Practice Lesson"

def PRACTICE_TEACHING_INSTRUCTIONS : String :=
  "This is a coding challenge lesson. In this lesson, do not introduce new topics; it is about solving an exercise using previously learned concepts only.\nGuide the student step by step toward the solution without writing the full answer or final code for them.\nBreak the problem into small, manageable steps and ask the student to implement each step before moving on.\nWhen the student is stuck, give progressive hints instead of solutions.\nYou may provide example inputs/outputs, edge cases, and clarification to help the student reason about correctness.\nReview the student's work by pointing out what's correct and what needs improvement, then suggest the next step.\nExercise theme is to be chosen based on the lesson title.\nExercise goals and desired output: "

def THEORY_PRACTICE_TEACHING_INSTRUCTIONS : String :=
  "Create a challenge-based lesson that is grounded in the material covered in the **current unit until this lesson, where the student demonstrates the knowledge they have learned in a fun and engaging way. Avoid coding in this lesson.\nThe lesson should include between eight and ten interactive and dynamic rounds between the student and the Maestro. \nThe challenge may include different types of questions or learning experiences, such as varied question formats, interactive tasks, MCQ, identification or matching questions, etc.\nYou are free to choose any structure or format that best supports an engaging challenge experience.\nDuring the challenge itself, there is no need to provide feedback or corrections, the focus should remain entirely on the challenge experience.\nAfter all challenge rounds are completed, provide a short summary that offers encouraging feedback, highlights areas for professional improvement and refinement, and points out the student's strengths as demonstrated through their responses during the challenge.\nEnsure the lesson remains aligned with the topics that were taught and is appropriate for the student's level. Don't code in this lesson.\nLesson goals: "

def DEFAULT_REQUIRED_PLUGINS : List String := ["code-editor"]

def DEFAULT_TEACHING_INSTRUCTIONS : String := ""

def DEFAULT_COURSE_DESCRIPTION : String := ""

def DEFAULT_CREDITS : Int := 0

/-- The `LESSON_TITLE_PREFIXES` dict in insertion order: the theory
practice key first, then each practice-session keyword. -/
def LESSON_TITLE_PREFIXES : List (String × String) :=
  ("Theory Practice Lesson", "📚 ") :: PRACTICE_SESSION_KEYWORDS.map (fun k => (k, "⚙ "))

/-! ## Lesson classifier and text normalizer of src/xlsx_to_maestro.py -/

/-- Embedding of `XLSXToMaestroConverter._should_skip_lesson`. -/
def should_skip_lesson (lesson_title : String) : Bool :=
  if lesson_title = "" then true
  else SKIP_LESSON_KEYWORDS.any (fun k => pyIn (lowerStr k) (lowerStr lesson_title))

/-- Embedding of `XLSXToMaestroConverter._is_practice_session`. -/
def is_practice_session (lesson_title : String) : Bool :=
  if lesson_title = "" then false
  else if pyIn (lowerStr THEORY_PRACTICE_KEYWORD) (lowerStr lesson_title) then false
  else PRACTICE_SESSION_KEYWORDS.any (fun k => pyIn (lowerStr k) (lowerStr lesson_title))

/-- Embedding of `XLSXToMaestroConverter._is_theory_practice_session`. -/
def is_theory_practice_session (lesson_title : String) : Bool :=
  if lesson_title = "" then false
  else pyIn (lowerStr THEORY_PRACTICE_KEYWORD) (lowerStr lesson_title)

/-- Embedding of `XLSXToMaestroConverter._split_mastery_outcomes`. -/
def split_mastery_outcomes (outcomes : String) : List String :=
  if outcomes = "" then []
  else (((splitOnChar ';' outcomes.data).map (fun l => pyStrip ⟨l⟩)).filter (· ≠ ""))

/-- Embedding of `XLSXToMaestroConverter._extract_week_title`. -/
def extract_week_title (learning_goal : String) : String :=
  if learning_goal = "" then ""
  else
    match breakAtChar ':' learning_goal.data with
    | none => pyStrip learning_goal
    | some p => pyStrip ⟨p.1⟩

/-- Embedding of `XLSXToMaestroConverter._extract_week_description`. -/
def extract_week_description (learning_goal : String) : String :=
  if learning_goal = "" then ""
  else
    match breakAtChar ':' learning_goal.data with
    | none => ""
    | some p => pyStrip ⟨p.2⟩

/-- Embedding of `XLSXToMaestroConverter._apply_lesson_prefix`. -/
def apply_lesson_prefix (lesson_title : String) : String :=
  if lesson_title = "" then lesson_title
  else
    match LESSON_TITLE_PREFIXES.find? (fun p => p.1.data.isPrefixOf lesson_title.data) with
    | some p => p.2 ++ lesson_title
    | none => lesson_title

/-- Character class `[\.\)\-:\s]` of the leading-number regex in
`XLSXToMaestroConverter._strip_leading_number`. -/
def isNumSep (c : Char) : Bool :=
  c = '.' || c = ')' || c = '-' || c = ':' || pyIsSpace c

/-- Embedding of `XLSXToMaestroConverter._strip_leading_number`: the
substitution `re.sub(r'^\d+[\.\)\-:\s]+\s*', '', title)` followed by
the `cleaned if cleaned else title` fallback.  Since the character
class contains `\s`, the trailing `\s*` never consumes anything after
the greedy `+`, so the match is exactly maximal digits followed by
maximal class characters, both required non-empty. -/
def strip_leading_number (title : String) : String :=
  if title = "" then title
  else
    let l := title.data
    let ds := l.takeWhile pyIsDigit
    if ds.isEmpty then title
    else
      let rest := l.drop ds.length
      let seps := rest.takeWhile isNumSep
      if seps.isEmpty then title
      else
        let cleaned := rest.drop seps.length
        if cleaned.isEmpty then title else ⟨cleaned⟩

/-- Embedding of `XLSXToMaestroConverter._normalize_dashes`. -/
def normalize_dashes (text : String) : String :=
  if text = "" then text
  else ⟨text.data.map (fun c =>
    if c = '—' || c = '–' || c = '−' || c = '‐' || c = '‑' || c = '‒' || c = '―'
    then '-' else c)⟩

/-! ## Data model of the XLSX ingestion (src/xlsx_to_maestro.py, read_xlsx) -/

/-- A spreadsheet cell as the parser observes it: empty (`None`), a
string, or an integral numeric value. -/
inductive Cell where
  | blank
  | str (s : String)
  | int (n : Int)
deriving DecidableEq

/-- Python truthiness of a cell value. -/
def Cell.truthy : Cell → Bool
  | .blank => false
  | .str s => s ≠ ""
  | .int n => n ≠ 0

/-- Python `cell != cursor` where the cursor is `None` or an `int`.
A string never equals an `int` in Python, and `None` only equals
`None`. -/
def Cell.ne (c : Cell) (cur : Option Int) : Bool :=
  match c, cur with
  | .blank, none => false
  | .int n, some m => n ≠ m
  | _, _ => true

/-- Numeric value of a decimal string literal. -/
def digitsVal (l : List Char) : Nat :=
  l.foldl (fun a c => a * 10 + (c.toNat - 48)) 0

/-- Python `int(float(s))` on the decimal fragment: optional sign,
digits with an optional fractional part, surrounded by optional
whitespace; truncation toward zero.  Anything else fails. -/
def pyParseNumber (s : String) : Option Int :=
  let l := pyStripList s.data
  let signed : Bool × List Char :=
    match l with
    | '-' :: rest => (true, rest)
    | '+' :: rest => (false, rest)
    | _ => (false, l)
  let neg := signed.1
  let body := signed.2
  let intPart := body.takeWhile pyIsDigit
  let rest := body.drop intPart.length
  let finish (d : List Char) : Option Int :=
    some (if neg then -(digitsVal d : Int) else (digitsVal d : Int))
  match rest with
  | [] => if intPart.isEmpty then none else finish intPart
  | '.' :: fr =>
    let fracPart := fr.takeWhile pyIsDigit
    if ¬ (fr.drop fracPart.length).isEmpty then none
    else if intPart.isEmpty && fracPart.isEmpty then none
    else finish intPart
  | _ => none

/-- Python `int(float(cell))` as used for week and chapter numbers:
`None` raises `TypeError`, a string is parsed as a float and
truncated, a numeric cell is truncated directly. -/
def Cell.coerceInt : Cell → Option Int
  | .blank => none
  | .str s => pyParseNumber s
  | .int n => some n

/-- A lesson record of the hierarchical model. -/
structure LessonRec where
  title : String
  learning_outcomes : String
  time_minutes : Cell
deriving DecidableEq

/-- A chapter record of the hierarchical model. -/
structure ChapterRec where
  chapter_num : Int
  title : String
  learning_goals : String
  lessons : List LessonRec
deriving DecidableEq

/-- A week record of the hierarchical model. -/
structure WeekRec where
  week_num : Int
  learning_goal : String
  chapters : List ChapterRec
deriving DecidableEq

/-- One data row of the spreadsheet (header row already skipped).
The goal, title and outcome columns are only ever used as strings
with `or ""` defaulting, so they are modelled as strings with the
empty string standing for a blank cell. -/
structure Row where
  week : Cell
  week_goal : String
  chapter : Cell
  chapter_goals : String
  chapter_title : String
  lesson_title : String
  time : Cell
  outcome : String
deriving DecidableEq

/-- Parser state of `read_xlsx`: the insertion-ordered weeks map, the
two forward-fill cursors, and the count of warnings printed so far. -/
structure ParseState where
  weeks : List (Int × WeekRec)
  current_week : Option Int
  current_chapter : Option Int
  warnings : Nat
deriving DecidableEq

def initState : ParseState := ⟨[], none, none, 0⟩

/-- First-match lookup in the insertion-ordered weeks map, as
indexing a Python dict. -/
def lookupWeek (ws : List (Int × WeekRec)) (k : Int) : Option WeekRec :=
  (ws.find? (fun p => p.1 = k)).map (·.2)

/-- Update the entry of key `k` in the weeks map (Python dicts hold
at most one entry per key, so only the first match is touched). -/
def updateWeek : List (Int × WeekRec) → Int → (WeekRec → WeekRec) → List (Int × WeekRec)
  | [], _, _ => []
  | p :: ps, k, f => if p.1 = k then (p.1, f p.2) :: ps else p :: updateWeek ps k f

/-- Apply a function to the last element of a list, as Python
`lst[-1]` mutation. -/
def updateLast : List α → (α → α) → List α
  | [], _ => []
  | [x], f => [f x]
  | x :: y :: xs, f => x :: updateLast (y :: xs) f

/-- Append a lesson to the last chapter of week `w`. -/
def appendLessonToWeek (s : ParseState) (w : Int) (les : LessonRec) : ParseState :=
  { s with weeks := updateWeek s.weeks w (fun wk =>
      { wk with chapters := updateLast wk.chapters (fun ch =>
          { ch with lessons := ch.lessons ++ [les] }) }) }

/-- Outcome of one of the two forward-fill phases on a row: either the
rest of the row is skipped (`continue`) or processing continues with
the updated state. -/
inductive RowStep where
  | skip (s : ParseState)
  | cont (s : ParseState)
deriving DecidableEq

/-- The week-field phase of `read_xlsx` (lines 104-118 of
src/xlsx_to_maestro.py). -/
def weekPhase (s : ParseState) (r : Row) : RowStep :=
  if r.week.truthy && r.week.ne s.current_week then
    match r.week.coerceInt with
    | none => .skip { s with warnings := s.warnings + 1 }
    | some w =>
      let s1 := { s with current_week := some w }
      if lookupWeek s1.weeks w = none then
        .cont { s1 with weeks := s1.weeks ++ [(w, ⟨w, r.week_goal, []⟩)] }
      else .cont s1
  else .cont s

/-- The chapter-field phase of `read_xlsx` (lines 120-134).  Indexing
`weeks_data[current_week]` raises `KeyError` when no current week is
established, which the outer handler turns into a fatal exit. -/
def chapterPhase (s : ParseState) (r : Row) : Except String RowStep :=
  if r.chapter.truthy && r.chapter.ne s.current_chapter then
    match r.chapter.coerceInt with
    | none => .ok (.skip { s with warnings := s.warnings + 1 })
    | some c =>
      let s1 := { s with current_chapter := some c }
      match s1.current_week with
      | none => .error "KeyError"
      | some w =>
        if lookupWeek s1.weeks w = none then .error "KeyError"
        else .ok (.cont { s1 with weeks := updateWeek s1.weeks w (fun wk =>
          { wk with chapters := wk.chapters ++ [⟨c, r.chapter_title, r.chapter_goals, []⟩] }) })
  else .ok (.cont s)

/-- The lesson-append phase of `read_xlsx` (lines 136-143): the lesson
is attached only when `current_week` is truthy (set and non-zero) and
that week already has at least one chapter. -/
def lessonPhase (s : ParseState) (r : Row) : Except String ParseState :=
  match s.current_week with
  | none => .ok s
  | some w =>
    if w = 0 then .ok s
    else
      match lookupWeek s.weeks w with
      | none => .error "KeyError"
      | some wk =>
        if wk.chapters.isEmpty then .ok s
        else .ok (appendLessonToWeek s w ⟨r.lesson_title, r.outcome, r.time⟩)

/-- Processing of one spreadsheet row by `read_xlsx`. -/
def processRow (s : ParseState) (r : Row) : Except String ParseState :=
  if r.lesson_title = "" then .ok s
  else
    match weekPhase s r with
    | .skip s1 => .ok s1
    | .cont s1 =>
      match chapterPhase s1 r with
      | .error e => .error e
      | .ok (.skip s2) => .ok s2
      | .ok (.cont s2) => lessonPhase s2 r

/-- Embedding of `XLSXToMaestroConverter.read_xlsx`: a single forward
pass over the data rows. -/
def read_xlsx (rows : List Row) : Except String ParseState :=
  rows.foldlM processRow initState

/-! ## Maestro export (src/xlsx_to_maestro.py, generate_maestro_json) -/

/-- A lesson object of the exported Maestro document. -/
structure LessonOut where
  title : String
  masteryOutcomes : List String
  teachingInstructions : String
  requiredPlugins : List String
deriving DecidableEq

/-- A unit object of the exported Maestro document. -/
structure UnitOut where
  title : String
  description : String
  lessons : List LessonOut
deriving DecidableEq

/-- The exported Maestro course object. -/
structure DocumentOut where
  description : String
  credits : Int
  teachingInstructions : String
  units : List UnitOut
deriving DecidableEq

/-- Stripping of a trailing `Output:` segment in the theory-practice
branch of `generate_maestro_json` (lines 287-291): the exact spelling
`Output:` is looked for first, then the exact spelling `output:`. -/
def stripOutputSegment (outcomes_text : String) : String :=
  if pyIn "Output:" outcomes_text then pyStrip (beforeFirstSub "Output:" outcomes_text)
  else if pyIn "output:" outcomes_text then pyStrip (beforeFirstSub "output:" outcomes_text)
  else outcomes_text

/-- Per-lesson body of the export loop of `generate_maestro_json`
(lines 260-309): `none` when the lesson is skipped, otherwise the
exported lesson object. -/
def processLesson (lesson : LessonRec) : Option LessonOut :=
  let original := lesson.title
  if should_skip_lesson original then none
  else
    let is_theory := is_theory_practice_session original
    let is_prac := is_practice_session original
    let title1 := apply_lesson_prefix (normalize_dashes (strip_leading_number original))
    let mastery := (split_mastery_outcomes lesson.learning_outcomes).map normalize_dashes
    if is_theory then
      some ⟨title1, [],
        THEORY_PRACTICE_TEACHING_INSTRUCTIONS ++ normalize_dashes (stripOutputSegment lesson.learning_outcomes),
        DEFAULT_REQUIRED_PLUGINS⟩
    else if is_prac then
      some ⟨title1, [],
        PRACTICE_TEACHING_INSTRUCTIONS ++ normalize_dashes lesson.learning_outcomes,
        DEFAULT_REQUIRED_PLUGINS⟩
    else
      some ⟨title1, mastery, DEFAULT_TEACHING_INSTRUCTIONS, DEFAULT_REQUIRED_PLUGINS⟩

/-- The nested chapter/lesson loop of `generate_maestro_json` that
accumulates the exported lessons of one week by appending. -/
def weekLessonsOut (chapters : List ChapterRec) : List LessonOut :=
  chapters.foldl (fun acc ch =>
    ch.lessons.foldl (fun acc2 les =>
      match processLesson les with
      | none => acc2
      | some o => acc2 ++ [o]) acc) []

/-- The unit object built for one week by `generate_maestro_json`
(lines 248-318), including the `WEEK {n}` fallback title. -/
def unitOfWeek (week_info : WeekRec) : UnitOut :=
  let week_title := extract_week_title week_info.learning_goal
  { title := if week_title ≠ "" then week_title else "WEEK " ++ toString week_info.week_num
    description := extract_week_description week_info.learning_goal
    lessons := weekLessonsOut week_info.chapters }

/-- The ascending key order `sorted(weeks_data.keys())` in which
`generate_maestro_json` visits the weeks. -/
def sortedWeekKeys (weeks_data : List (Int × WeekRec)) : List Int :=
  List.insertionSort (· ≤ ·) (weeks_data.map Prod.fst)

/-- The `units` list of `generate_maestro_json`: weeks are visited in
`sorted(weeks_data.keys())` order. -/
def generate_maestro_units (weeks_data : List (Int × WeekRec)) : List UnitOut :=
  (sortedWeekKeys weeks_data).filterMap
    (fun k => (lookupWeek weeks_data k).map unitOfWeek)

/-- The course object assembled by `generate_maestro_json`. -/
def generate_maestro_json (weeks_data : List (Int × WeekRec)) : DocumentOut :=
  ⟨DEFAULT_COURSE_DESCRIPTION, DEFAULT_CREDITS, DEFAULT_TEACHING_INSTRUCTIONS,
   generate_maestro_units weeks_data⟩

/-! ## Allocation engine (src/syllabus_generator.py, distribute_lessons) -/

def NUM_OF_WEEKS : Nat := 4

def NUM_OF_CHAPTERS_PER_WEEK : Nat := 5

/-- Lesson counts of the chapters of a week holding `wlc` lessons:
`lessons_per_chapter` plus one for the first `chapter_remainder`
chapters (0-based `chapter < chapter_remainder`). -/
def chapterCounts (wlc : Nat) : List Nat :=
  (List.range NUM_OF_CHAPTERS_PER_WEEK).map
    (fun c => wlc / NUM_OF_CHAPTERS_PER_WEEK +
      if c < wlc % NUM_OF_CHAPTERS_PER_WEEK then 1 else 0)

/-- Lesson counts of the weeks for `total` lessons: `lessons_per_week`
plus one for weeks `1..remainder` (1-based `week ≤ remainder`, i.e.
0-based `w < remainder`). -/
def weekCounts (total : Nat) : List Nat :=
  (List.range NUM_OF_WEEKS).map
    (fun w => total / NUM_OF_WEEKS + if w < total % NUM_OF_WEEKS then 1 else 0)

/-- Contiguous slicing `lessons[lesson_index : lesson_index + count]`
repeated over a list of counts. -/
def sliceCounts (l : List α) (counts : List Nat) (idx : Nat) : List (List α) :=
  match counts with
  | [] => []
  | c :: cs => (l.drop idx).take c :: sliceCounts l cs (idx + c)

/-- The outer week loop of `distribute_lessons`, carrying the running
`lesson_index` which advances by each produced chapter slice. -/
def distWeeksFrom (l : List α) (w : Nat) (wcs : List Nat) (idx : Nat) :
    List (Nat × List (List α)) :=
  match wcs with
  | [] => []
  | wc :: rest =>
    (w, sliceCounts l (chapterCounts wc) idx) ::
      distWeeksFrom l (w + 1) rest (idx + (chapterCounts wc).sum)

/-- Embedding of `SyllabusGenerator.distribute_lessons`: the result is
the insertion-ordered mapping week number 1..NUM_OF_WEEKS to that
week's list of chapters. -/
def distribute_lessons (lessons : List α) : List (Nat × List (List α)) :=
  distWeeksFrom lessons 1 (weekCounts lessons.length) 0

/-! ## Time-budget rescaling (src/syllabus_generator.py, adjust_times_to_30_hours) -/

/-- Python `round` on an exact rational value: round half to even. -/
def pyRound (q : ℚ) : Int :=
  let n := ⌊q⌋
  let frac := q - (n : ℚ)
  if frac < 1 / 2 then n
  else if 1 / 2 < frac then n + 1
  else if n % 2 = 0 then n else n + 1

/-- Embedding of `SyllabusGenerator.adjust_times_to_30_hours` with the
floating-point scaling carried out in exact rational arithmetic. -/
def adjust_times_to_30_hours (estimated_times : List (List Int)) : List (List Int) :=
  let total : Int := (estimated_times.map (·.sum)).sum
  if total = 0 then estimated_times
  else
    let scale : ℚ := 1800 / (total : ℚ)
    estimated_times.map (fun chapter_times =>
      chapter_times.map (fun (t : Int) => max 15 (pyRound ((t : ℚ) * scale / 5) * 5)))

/-! ## Practice-session response parsing (src/syllabus_generator.py,
generate_practice_sessions_for_week) -/

/-- A practice session parsed from the collaborator response. -/
structure Session where
  title : String
  learning_outcomes : String
deriving DecidableEq

/-- Parser state of the response loop: completed chapter groups, the
sessions of the chapter being collected, and the pending session
(`none` models the empty dict, which is falsy). -/
structure PPState where
  all : List (List Session)
  chap : List Session
  cur : Option Session
deriving DecidableEq

/-- Processing of one (stripped) response line (lines 379-395 of
src/syllabus_generator.py). -/
def ppLine (st : PPState) (line : String) : PPState :=
  let l := pyStrip line
  if "CHAPTER:".data.isPrefixOf l.data then
    let st1 :=
      match st.cur with
      | some s => if s.title ≠ "" then { st with chap := st.chap ++ [s], cur := none } else st
      | none => st
    if st1.chap.isEmpty then st1
    else { st1 with all := st1.all ++ [st1.chap], chap := [] }
  else if "TITLE:".data.isPrefixOf l.data then
    let st1 :=
      match st.cur with
      | some s => if s.title ≠ "" then { st with chap := st.chap ++ [s] } else st
      | none => st
    { st1 with cur := some ⟨pyStrip ⟨l.data.drop 6⟩, ""⟩ }
  else if "OUTCOMES:".data.isPrefixOf l.data then
    match st.cur with
    | some s => { st with cur := some { s with learning_outcomes := pyStrip ⟨l.data.drop 9⟩ } }
    | none => st
  else st

/-- Parse the collaborator response into chapter groups of practice
sessions, including the final flush after the line loop. -/
def parse_practice_response (resp : String) : List (List Session) :=
  let st := ((splitOnChar '\n' resp.data).map (fun l => (⟨l⟩ : String))).foldl ppLine ⟨[], [], none⟩
  let st1 :=
    match st.cur with
    | some s => if s.title ≠ "" then { st with chap := st.chap ++ [s] } else st
    | none => st
  if st1.chap.isEmpty then st1.all else st1.all ++ [st1.chap]

/-- Deterministic core of
`SyllabusGenerator.generate_practice_sessions_for_week`: parse the
response and require exactly one chapter group per chapter sent. -/
def generate_practice_sessions_for_week (num_chapters : Nat) (resp : String) :
    Except String (List (List Session)) :=
  let groups := parse_practice_response resp
  if groups.length ≠ num_chapters then .error "Mismatch in chapter count"
  else .ok groups

/-! ## Helper lemmas -/

lemma breakAtChar_eq_none {c : Char} {l : List Char} (h : c ∉ l) :
    breakAtChar c l = none := by
  induction l with
  | nil => rfl
  | cons x xs ih =>
    have hx : ¬ x = c := fun hxc => h (hxc ▸ List.mem_cons_self x xs)
    simp only [breakAtChar, if_neg hx,
      ih (fun hm => h (List.mem_cons_of_mem _ hm)), Option.map_none']

lemma breakAtChar_append {c : Char} {a b : List Char} (h : c ∉ a) :
    breakAtChar c (a ++ c :: b) = some (a, b) := by
  induction a with
  | nil => simp [breakAtChar]
  | cons x xs ih =>
    have hx : ¬ x = c := fun hxc => h (hxc ▸ List.mem_cons_self x xs)
    simp [List.cons_append, breakAtChar, if_neg hx,
      ih (fun hm => h (List.mem_cons_of_mem _ hm))]

lemma takeWhile_append_all {p : α → Bool} {l₁ l₂ : List α}
    (h : ∀ a ∈ l₁, p a = true) :
    (l₁ ++ l₂).takeWhile p = l₁ ++ l₂.takeWhile p := by
  induction l₁ with
  | nil => simp
  | cons x xs ih =>
    simp [List.cons_append, List.takeWhile_cons, h x (by simp),
      ih (fun a ha => h a (by simp [ha]))]

lemma takeWhile_eq_nil_of_head {p : α → Bool} {l : List α}
    (h : ∀ a, l.head? = some a → p a = false) : l.takeWhile p = [] := by
  cases l with
  | nil => rfl
  | cons x xs => simp [List.takeWhile_cons, h x rfl]

/-! ## Claim C5: unit title and description derivation -/

/-- C5 (corrected): splitting a learning goal happens at the first
colon with both parts trimmed, a goal without a colon yields an empty
description and the trimmed whole string as extracted title; but the
exported unit title falls back to `WEEK {week_num}` whenever the
extracted title is empty. -/
theorem week_title_description_split :
  (∀ s : String, ':' ∉ s.data →
      extract_week_title s = pyStrip s ∧ extract_week_description s = "") ∧
  (∀ a b : String, ':' ∉ a.data →
      extract_week_title (a ++ ":" ++ b) = pyStrip a ∧
      extract_week_description (a ++ ":" ++ b) = pyStrip b) ∧
  (∀ w : WeekRec,
      (unitOfWeek w).title =
        (if extract_week_title w.learning_goal ≠ "" then extract_week_title w.learning_goal
         else "WEEK " ++ toString w.week_num) ∧
      (unitOfWeek w).description = extract_week_description w.learning_goal) := by
  refine ⟨?_, ?_, ?_⟩
  · intro s h
    by_cases hs : s = ""
    · subst hs; exact ⟨rfl, rfl⟩
    · simp [extract_week_title, extract_week_description, hs, breakAtChar_eq_none h]
  · intro a b h
    have hd : (a ++ ":" ++ b).data = a.data ++ ':' :: b.data := by
      rw [String.data_append, String.data_append]
      simp [show (":" : String).data = [':'] from rfl]
    have hne : (a ++ ":" ++ b) ≠ "" := by
      intro h0
      have h1 := congrArg String.data h0
      rw [hd] at h1
      simp at h1
    constructor
    · simp [extract_week_title, hne, hd, breakAtChar_append h]
    · simp [extract_week_description, hne, hd, breakAtChar_append h]
  · intro w
    exact ⟨rfl, rfl⟩

/-- Witness for C5 at the example of the specification. -/
theorem week_title_description_split_witness :
  extract_week_title "Python Fundamentals: Master basic syntax and control flow." =
    "Python Fundamentals" ∧
  extract_week_description "Python Fundamentals: Master basic syntax and control flow." =
    "Master basic syntax and control flow." := by
  have h := week_title_description_split.2.1
    "Python Fundamentals" " Master basic syntax and control flow." (by decide)
  have hs : ("Python Fundamentals" ++ ":" ++ " Master basic syntax and control flow." : String) =
      "Python Fundamentals: Master basic syntax and control flow." := rfl
  rw [hs] at h
  obtain ⟨h1, h2⟩ := h
  rw [h1, h2]
  exact ⟨by decide, by decide⟩

/-- Counterexample for C5: a week whose learning goal is empty is
exported with the synthetic title `WEEK 1`, not with the empty
before-colon portion of the goal. -/
theorem week_title_fallback_counterexample :
  (generate_maestro_units [(1, ⟨1, "", []⟩)]).map UnitOut.title = ["WEEK 1"] ∧
  extract_week_title "" = "" ∧ ("WEEK 1" : String) ≠ "" := by
  refine ⟨by decide, rfl, by decide⟩

/-! ## Claim C6: leading-number stripping -/

lemma isNumSep_not_digit {c : Char} (h : isNumSep c = true) : pyIsDigit c = false := by
  cases hd : pyIsDigit c with
  | false => rfl
  | true =>
    exfalso
    have hd1 : 48 ≤ c.toNat ∧ c.toNat ≤ 57 := by
      simpa [pyIsDigit] using hd
    have h1 : c = '.' ∨ c = ')' ∨ c = '-' ∨ c = ':' ∨ pyIsSpace c = true := by
      simpa [isNumSep, or_assoc] using h
    rcases h1 with h1 | h1 | h1 | h1 | h1
    · subst h1; exact absurd hd1 (by decide)
    · subst h1; exact absurd hd1 (by decide)
    · subst h1; exact absurd hd1 (by decide)
    · subst h1; exact absurd hd1 (by decide)
    · have h2 : c.toNat = 32 ∨ (9 ≤ c.toNat ∧ c.toNat ≤ 13) ∨ c.toNat = 28 ∨
          c.toNat = 29 ∨ c.toNat = 30 ∨ c.toNat = 31 ∨ c.toNat = 133 ∨
          c.toNat = 160 ∨ c.toNat = 5760 ∨ (8192 ≤ c.toNat ∧ c.toNat ≤ 8202) ∨
          c.toNat = 8232 ∨ c.toNat = 8233 ∨ c.toNat = 8239 ∨ c.toNat = 8287 ∨
          c.toNat = 12288 := by simpa [pyIsSpace, or_assoc] using h1
      omega

lemma string_mk_ne_empty {l : List Char} (h : l ≠ []) : (⟨l⟩ : String) ≠ "" := by
  intro h0
  exact h (congrArg String.data h0)

/-- C6 (corrected): the regex character class after the digits is
`[\.\)\-:\s]`, so whitespace alone is a valid separator; a prefix of
digits followed by one or more separator-class characters is removed
(unless nothing would remain), and a title whose digits are not
followed by a separator-class character is returned unchanged. -/
theorem strip_leading_number_spec :
  (∀ ds ss rest : List Char,
      ds ≠ [] → (∀ c ∈ ds, pyIsDigit c = true) →
      ss ≠ [] → (∀ c ∈ ss, isNumSep c = true) →
      (∀ c, rest.head? = some c → isNumSep c = false) →
      strip_leading_number ⟨ds ++ ss ++ rest⟩ =
        (if rest = [] then ⟨ds ++ ss ++ rest⟩ else ⟨rest⟩)) ∧
  (∀ t : String,
      (t.data.takeWhile pyIsDigit = [] ∨
        ((t.data.drop (t.data.takeWhile pyIsDigit).length).takeWhile isNumSep = [])) →
      strip_leading_number t = t) := by
  constructor
  · intro ds ss rest hds hdig hss hsep hrest
    have hne : (⟨ds ++ ss ++ rest⟩ : String) ≠ "" :=
      string_mk_ne_empty (by simp [hds])
    have hssd : (ss ++ rest).takeWhile pyIsDigit = [] := by
      apply takeWhile_eq_nil_of_head
      intro a ha
      cases ss with
      | nil => exact absurd rfl hss
      | cons s0 ss1 =>
        simp at ha
        subst ha
        exact isNumSep_not_digit (hsep s0 (by simp))
    have htw : (ds ++ ss ++ rest).takeWhile pyIsDigit = ds := by
      rw [List.append_assoc, takeWhile_append_all hdig, hssd, List.append_nil]
    have hrw : (ss ++ rest).takeWhile isNumSep = ss := by
      rw [takeWhile_append_all hsep, takeWhile_eq_nil_of_head hrest, List.append_nil]
    simp only [strip_leading_number, if_neg hne]
    show (let l := ds ++ ss ++ rest; _ : String) = _
    simp only [htw]
    rw [List.append_assoc]
    simp only [List.isEmpty_iff, hds, if_neg]
    rw [show (ds ++ (ss ++ rest)).drop ds.length = ss ++ rest from List.drop_left ds (ss ++ rest)]
    simp only [hrw, List.isEmpty_iff, hss, if_neg]
    rw [show (ss ++ rest).drop ss.length = rest from List.drop_left ss rest]
    by_cases hr : rest = []
    · simp [hr, List.append_assoc]
    · simp [hr]
  · intro t h
    by_cases ht : t = ""
    · simp [strip_leading_number, ht]
    · rcases h with h | h
      · simp [strip_leading_number, ht, h]
      · simp only [strip_leading_number, if_neg ht]
        by_cases hds : t.data.takeWhile pyIsDigit = []
        · simp [hds]
        · simp [hds, h]

/-- Witness for C6 at the end-to-end example of the specification. -/
theorem strip_leading_number_spec_witness :
  strip_leading_number "4. Data-Driven AI" = "Data-Driven AI" := by
  have h := strip_leading_number_spec.1 ['4'] ['.', ' '] ("Data-Driven AI").data
    (by decide) (by decide) (by decide) (by decide) (by decide)
  have he : (⟨['4'] ++ ['.', ' '] ++ ("Data-Driven AI").data⟩ : String) =
      "4. Data-Driven AI" := rfl
  rw [he] at h
  rw [h]
  decide

/-- Counterexample for C6: in `"4 Data"` the digit is followed only by
a space, which the claim says leaves the title unchanged, yet the code
strips it because `\s` belongs to the separator class. -/
theorem strip_leading_number_space_counterexample :
  strip_leading_number "4 Data" = "Data" ∧
  strip_leading_number "4 Data" ≠ "4 Data" := by
  exact ⟨by decide, by decide⟩

/-! ## Claim C7: theory-practice lesson export -/

/-- C7 (corrected): a theory-practice lesson exports with empty
mastery outcomes and the fixed template concatenated with the
outcomes text, from which the trailing segment starting at the exact
spelling `Output:` (or, failing that, the exact spelling `output:`)
is removed and the remainder trimmed; the match is case-sensitive, so
other case variants such as `OUTPUT:` are not stripped; the result is
dash-normalized. -/
theorem theory_practice_export_spec :
  (∀ les : LessonRec,
      should_skip_lesson les.title = false →
      is_theory_practice_session les.title = true →
      processLesson les = some
        ⟨ apply_lesson_prefix (normalize_dashes (strip_leading_number les.title)), [],
         THEORY_PRACTICE_TEACHING_INSTRUCTIONS ++
           normalize_dashes (stripOutputSegment les.learning_outcomes),
         DEFAULT_REQUIRED_PLUGINS⟩) ∧
  (∀ s : String, pyIn "Output:" s = true →
      stripOutputSegment s = pyStrip (beforeFirstSub "Output:" s)) ∧
  (∀ s : String, pyIn "Output:" s = false → pyIn "output:" s = true →
      stripOutputSegment s = pyStrip (beforeFirstSub "output:" s)) ∧
  (∀ s : String, pyIn "Output:" s = false → pyIn "output:" s = false →
      stripOutputSegment s = s) := by
  refine ⟨?_, ?_, ?_, ?_⟩
  · intro les h1 h2
    simp [processLesson, h1, h2]
  · intro s h
    simp [stripOutputSegment, h]
  · intro s h1 h2
    simp [stripOutputSegment, h1, h2]
  · intro s h1 h2
    simp [stripOutputSegment, h1, h2]

/-- Witness for C7: a theory-practice lesson whose outcomes carry an
exact `Output:` segment. -/
theorem theory_practice_export_spec_witness :
  (processLesson ⟨"Theory Practice Lesson", "Goals Output: secret", Cell.blank⟩).map
      LessonOut.masteryOutcomes = some [] ∧
  (processLesson ⟨"Theory Practice Lesson", "Goals Output: secret", Cell.blank⟩).map
      LessonOut.teachingInstructions =
    some (THEORY_PRACTICE_TEACHING_INSTRUCTIONS ++ "Goals") := by
  have h := theory_practice_export_spec.1
    ⟨"Theory Practice Lesson", "Goals Output: secret", Cell.blank⟩ (by decide) (by decide)
  rw [h]
  have hs : normalize_dashes (stripOutputSegment "Goals Output: secret") = "Goals" := by decide
  simp [hs]

/-- Counterexample for C7: the uppercase variant `OUTPUT:` is not
stripped, although the claim says matching of `Output:` is
case-insensitive. -/
theorem output_strip_case_counterexample :
  (processLesson ⟨"Theory Practice Lesson", "Goals OUTPUT: secret", Cell.blank⟩).map
      LessonOut.teachingInstructions =
    some (THEORY_PRACTICE_TEACHING_INSTRUCTIONS ++ "Goals OUTPUT: secret") ∧
  (THEORY_PRACTICE_TEACHING_INSTRUCTIONS ++ "Goals OUTPUT: secret" : String) ≠
    THEORY_PRACTICE_TEACHING_INSTRUCTIONS ++ "Goals" := by
  constructor
  · rfl
  · intro h0
    have h1 := congrArg String.length h0
    simp only [String.length_append] at h1
    have h2 : ("Goals OUTPUT: secret" : String).length = 20 := by decide
    have h3 : ("Goals" : String).length = 5 := by decide
    omega

/-! ## Claim C3: classification precedence -/

/-- The four lesson categories produced by the classification logic of
the export loop. -/
inductive LessonClass where
  | skip
  | theoryPractice
  | practice
  | standard
deriving DecidableEq

/-- The classification implicit in lines 263-299 of
src/xlsx_to_maestro.py: the skip check short-circuits first, then the
theory-practice check, then the practice check. -/
def classify (title : String) : LessonClass :=
  if should_skip_lesson title then .skip
  else if is_theory_practice_session title then .theoryPractice
  else if is_practice_session title then .practice
  else .standard

lemma classify_skip_iff {t : String} :
    classify t = .skip ↔ should_skip_lesson t = true := by
  unfold classify
  by_cases h : should_skip_lesson t = true
  · simp [h]
  · simp only [Bool.not_eq_true] at h
    simp only [h, Bool.false_eq_true, if_false]
    by_cases h2 : is_theory_practice_session t = true <;>
      by_cases h3 : is_practice_session t = true <;> simp [h2, h3]

/-- C3 (confirmed): classification is by case-insensitive substring
matching with strict precedence Skip over TheoryPractice over
Practice over Standard; a skip-classified lesson is omitted from the
export entirely; and the theory-practice keyword indeed contains a
practice keyword as a substring, yet classifies as TheoryPractice. -/
theorem classify_precedence :
  (∀ t k, k ∈ SKIP_LESSON_KEYWORDS → pyIn (lowerStr k) (lowerStr t) = true →
      classify t = .skip) ∧
  (∀ t, classify t ≠ .skip →
      pyIn (lowerStr THEORY_PRACTICE_KEYWORD) (lowerStr t) = true →
      classify t = .theoryPractice) ∧
  (∀ t, classify t ≠ .skip → classify t ≠ .theoryPractice →
      (∃ k ∈ PRACTICE_SESSION_KEYWORDS, pyIn (lowerStr k) (lowerStr t) = true) →
      classify t = .practice) ∧
  (∀ les : LessonRec, classify les.title = .skip → processLesson les = none) ∧
  pyIn (lowerStr "Practice Lesson") (lowerStr THEORY_PRACTICE_KEYWORD) = true := by
  refine ⟨?_, ?_, ?_, ?_, by decide⟩
  · intro t k hk hin
    rw [classify_skip_iff]
    unfold should_skip_lesson
    by_cases ht : t = ""
    · simp [ht]
    · simp only [ht, if_false]
      exact List.any_eq_true.mpr ⟨k, hk, hin⟩
  · intro t hns hin
    have hskip : should_skip_lesson t = false := by
      cases h : should_skip_lesson t
      · rfl
      · exact absurd (classify_skip_iff.mpr h) hns
    have ht : t ≠ "" := by
      intro h0
      rw [h0] at hskip
      simp [should_skip_lesson] at hskip
    have htp : is_theory_practice_session t = true := by
      simp [is_theory_practice_session, ht, hin]
    simp [classify, hskip, htp]
  · intro t hns hntp hex
    obtain ⟨k, hk, hin⟩ := hex
    have hskip : should_skip_lesson t = false := by
      cases h : should_skip_lesson t
      · rfl
      · exact absurd (classify_skip_iff.mpr h) hns
    have ht : t ≠ "" := by
      intro h0
      rw [h0] at hskip
      simp [should_skip_lesson] at hskip
    have htp : is_theory_practice_session t = false := by
      cases h : is_theory_practice_session t
      · rfl
      · exact absurd (by simp [classify, hskip, h]) hntp
    have htp2 : pyIn (lowerStr THEORY_PRACTICE_KEYWORD) (lowerStr t) = false := by
      simpa [is_theory_practice_session, ht] using htp
    have hp : is_practice_session t = true := by
      simp only [is_practice_session, ht, if_false, htp2]
      exact List.any_eq_true.mpr ⟨k, hk, hin⟩
    simp [classify, hskip, htp, hp]
  · intro les h
    have hs := classify_skip_iff.mp h
    simp [processLesson, hs]

/-- Witness for C3 at the example of the specification: a title
containing both a skip keyword and a practice keyword is Skip, and a
theory-practice title is TheoryPractice rather than Practice. -/
theorem classify_precedence_witness :
  classify "Sync Session: Practice Session Recap" = .skip ∧
  classify "3. Theory Practice Lesson" = .theoryPractice := by
  constructor
  · exact classify_precedence.1 "Sync Session: Practice Session Recap" "Sync Session"
      (by decide) (by decide)
  · exact classify_precedence.2.1 "3. Theory Practice Lesson" (by decide) (by decide)

/-! ## Claim C9: chapter-group count validation -/

/-- C9 (confirmed): for any collaborator response, the enrichment step
fails if and only if the number of chapter groups parsed from the
response differs from the number of chapters sent; when the counts
match it returns exactly the parsed groups, in order, with that
length. -/
theorem practice_sessions_count_validation :
  ∀ (num_chapters : Nat) (resp : String),
    ((∃ e, generate_practice_sessions_for_week num_chapters resp = .error e) ↔
      (parse_practice_response resp).length ≠ num_chapters) ∧
    (∀ gs, generate_practice_sessions_for_week num_chapters resp = .ok gs →
      gs = parse_practice_response resp ∧ gs.length = num_chapters) := by
  intro n resp
  unfold generate_practice_sessions_for_week
  by_cases h : (parse_practice_response resp).length = n
  · simp [h]
  · simp [h]

/-- Witness for C9: a two-chapter response against a two-chapter
request succeeds with exactly two groups. -/
theorem practice_sessions_count_validation_witness :
  generate_practice_sessions_for_week 2
      "CHAPTER: 1\nTITLE: A\nOUTCOMES: oa\nCHAPTER: 2\nTITLE: B\nOUTCOMES: ob" =
    .ok [[⟨"A", "oa"⟩], [⟨"B", "ob"⟩]] ∧
  ([[(⟨"A", "oa"⟩ : Session)], [⟨"B", "ob"⟩]]).length = 2 := by
  have hok : generate_practice_sessions_for_week 2
      "CHAPTER: 1\nTITLE: A\nOUTCOMES: oa\nCHAPTER: 2\nTITLE: B\nOUTCOMES: ob" =
    .ok [[⟨"A", "oa"⟩], [⟨"B", "ob"⟩]] := by rfl
  have h := (practice_sessions_count_validation 2
    "CHAPTER: 1\nTITLE: A\nOUTCOMES: oa\nCHAPTER: 2\nTITLE: B\nOUTCOMES: ob").2
    [[⟨"A", "oa"⟩], [⟨"B", "ob"⟩]] hok
  exact ⟨hok, h.2⟩

lemma pyRound_eq_down {q : ℚ} {n : Int} (h1 : (n : ℚ) ≤ q) (h2 : q < (n : ℚ) + 1 / 2) :
    pyRound q = n := by
  have hf : ⌊q⌋ = n := by
    rw [Int.floor_eq_iff]
    constructor
    · exact h1
    · linarith
  simp only [pyRound, hf]
  rw [if_pos (by linarith)]

lemma pyRound_eq_up {q : ℚ} {n : Int} (h1 : (n : ℚ) + 1 / 2 < q) (h2 : q < (n : ℚ) + 1) :
    pyRound q = n + 1 := by
  have hf : ⌊q⌋ = n := by
    rw [Int.floor_eq_iff]
    constructor
    · linarith
    · linarith
  simp only [pyRound, hf]
  rw [if_neg (by linarith), if_pos (by linarith)]

/-! ## Claim C8: time-budget rescaling -/

/-- Total of a nested list of estimated times. -/
def nestedSum (times : List (List Int)) : Int :=
  (times.map (·.sum)).sum

/-- C8 (confirmed): with a positive estimated total `T`, every time
`t` is rescaled to `max 15 (round(t * (1800 / T) / 5) * 5)`; with a
zero total the times are returned unchanged; and the rescaled total
is not guaranteed to equal the 1800-minute target, as the concrete
input `[[1], [1000]]` shows. -/
theorem adjust_times_spec :
  (∀ times : List (List Int), nestedSum times = 0 →
      adjust_times_to_30_hours times = times) ∧
  (∀ times : List (List Int), 0 < nestedSum times → ∀ i j : Nat,
      ((adjust_times_to_30_hours times)[i]?.bind (fun ch => ch[j]?)) =
        (times[i]?.bind (fun ch => ch[j]?)).map
          (fun (t : Int) => max 15 (pyRound ((t : ℚ) * (1800 / (nestedSum times : ℚ)) / 5) * 5))) ∧
  nestedSum (adjust_times_to_30_hours [[1], [1000]]) ≠ 1800 := by
  refine ⟨?_, ?_, ?_⟩
  · intro times h
    have h0 : (times.map (·.sum)).sum = (0 : Int) := h
    simp [adjust_times_to_30_hours, h0]
  · intro times h i j
    have h0 : ¬ (times.map (·.sum)).sum = (0 : Int) := by
      have he : nestedSum times = (times.map (·.sum)).sum := rfl
      omega
    simp only [adjust_times_to_30_hours, h0, if_false]
    rw [List.getElem?_map]
    cases hc : times[i]? with
    | none => simp
    | some ch =>
      simp [List.getElem?_map, nestedSum]
  · have e1 : pyRound ((360 : ℚ) / 1001) = 0 := by
      apply pyRound_eq_down <;> norm_num
    have e2 : pyRound ((360000 : ℚ) / 1001) = 360 := by
      have h360 := pyRound_eq_up (q := (360000 : ℚ) / 1001) (n := 359)
        (by norm_num) (by norm_num)
      simpa using h360
    have hne : ¬ (([[(1 : Int)], [1000]].map (·.sum)).sum = 0) := by decide
    simp only [nestedSum, adjust_times_to_30_hours, hne, if_false, List.map_cons,
      List.map_nil, List.sum_cons, List.sum_nil]
    norm_num
    rw [e1, e2]
    decide

/-- Witness for C8: the zero-total branch at `[[0]]` and the formula
at the single estimate `[[45]]`, which rescales to the full budget. -/
theorem adjust_times_spec_witness :
  adjust_times_to_30_hours [[0]] = [[0]] ∧
  ((adjust_times_to_30_hours [[45]])[0]?.bind (fun ch => ch[0]?)) = some 1800 := by
  constructor
  · exact adjust_times_spec.1 [[0]] (by decide)
  · have h := adjust_times_spec.2.1 [[45]] (by decide) 0 0
    rw [h]
    have e360 : pyRound (360 : ℚ) = 360 := pyRound_eq_down (by norm_num) (by norm_num)
    norm_num [nestedSum]
    rw [e360]
    decide

/-! ## Claim C4: malformed week/chapter fields -/

lemma weekPhase_preserves {s : ParseState} {r : Row} :
    ∀ s1, weekPhase s r = .cont s1 →
      s1.current_chapter = s.current_chapter ∧ s1.warnings = s.warnings := by
  intro s1 h
  unfold weekPhase at h
  by_cases hc : (r.week.truthy && r.week.ne s.current_week) = true
  · rw [if_pos hc] at h
    cases hw : r.week.coerceInt with
    | none => rw [hw] at h; simp at h
    | some w =>
      rw [hw] at h
      dsimp only at h
      split at h <;>
        (simp only [RowStep.cont.injEq] at h; subst h; exact ⟨rfl, rfl⟩)
  · rw [if_neg hc] at h
    simp only [RowStep.cont.injEq] at h
    subst h
    exact ⟨rfl, rfl⟩

/-- C4 (corrected): a record whose week field fails coercion is
skipped with a warning and no cursor or model change; a record whose
chapter field fails coercion is skipped with a warning and the
chapter cursor is unchanged, but the week cursor (and the weeks map)
keeps whatever update the same record's week field already made. -/
theorem malformed_field_skip_behavior :
  ∀ (s : ParseState) (r : Row), r.lesson_title ≠ "" →
    (((r.week.truthy && r.week.ne s.current_week) = true → r.week.coerceInt = none →
        processRow s r = .ok { s with warnings := s.warnings + 1 }) ∧
     (∀ s1, weekPhase s r = .cont s1 →
        (r.chapter.truthy && r.chapter.ne s1.current_chapter) = true →
        r.chapter.coerceInt = none →
        processRow s r = .ok { s1 with warnings := s1.warnings + 1 } ∧
        s1.current_chapter = s.current_chapter ∧ s1.warnings = s.warnings)) := by
  intro s r hl
  constructor
  · intro hcond hco
    have hw : weekPhase s r = .skip { s with warnings := s.warnings + 1 } := by
      unfold weekPhase
      rw [if_pos hcond, hco]
    unfold processRow
    rw [if_neg hl, hw]
  · intro s1 hw hcond hco
    refine ⟨?_, (weekPhase_preserves s1 hw).1, (weekPhase_preserves s1 hw).2⟩
    have hc : chapterPhase s1 r = .ok (.skip { s1 with warnings := s1.warnings + 1 }) := by
      unfold chapterPhase
      rw [if_pos hcond, hco]
    unfold processRow
    rw [if_neg hl, hw]
    dsimp only
    rw [hc]

/-- The one-week state reached after a well-formed first row. -/
def stateWeekOne : ParseState :=
  ⟨[(1, ⟨1, "G1", [⟨1, "C1", "", [⟨"A", "", Cell.blank⟩]⟩]⟩)], some 1, some 1, 0⟩

/-- A record carrying a fresh valid week number and a malformed
chapter number. -/
def rowBadChapter : Row := ⟨Cell.int 2, "G2", Cell.str "x", "", "C2", "B", Cell.blank, ""⟩

/-- The state after the week phase of `rowBadChapter`: the week cursor
has moved to 2 and week 2 has been created. -/
def stateWeekTwo : ParseState :=
  ⟨[(1, ⟨1, "G1", [⟨1, "C1", "", [⟨"A", "", Cell.blank⟩]⟩]⟩), (2, ⟨2, "G2", []⟩)],
   some 2, some 1, 0⟩

/-- Witness for C4: the concrete malformed-chapter record is skipped
with one warning, leaving the chapter cursor untouched. -/
theorem malformed_field_skip_behavior_witness :
  processRow stateWeekOne rowBadChapter = .ok { stateWeekTwo with warnings := 1 } ∧
  stateWeekTwo.current_chapter = stateWeekOne.current_chapter := by
  have h := (malformed_field_skip_behavior stateWeekOne rowBadChapter (by decide)).2
    stateWeekTwo rfl (by decide) rfl
  exact ⟨h.1, h.2.1⟩

/-- Counterexample for C4: on a record whose chapter field fails
coercion, the record is skipped with a warning but the week cursor
does not retain its pre-record value `some 1`; it has moved to
`some 2` and week 2 has been created. -/
theorem malformed_chapter_cursor_counterexample :
  stateWeekOne.current_week = some 1 ∧
  processRow stateWeekOne rowBadChapter =
    .ok ⟨[(1, ⟨1, "G1", [⟨1, "C1", "", [⟨"A", "", Cell.blank⟩]⟩]⟩), (2, ⟨2, "G2", []⟩)],
         some 2, some 1, 1⟩ ∧
  (some (2 : Int)) ≠ some 1 := by
  exact ⟨rfl, rfl, by decide⟩

/-! ## Claim C10: lesson attachment condition -/

/-- Number of lessons stored anywhere in the parsed model. -/
def totalLessons (s : ParseState) : Nat :=
  (s.weeks.map (fun p => ((p.2.chapters.map (fun c => c.lessons.length)).sum))).sum

lemma updateLast_append_lesson (les : LessonRec) :
    ∀ chs : List ChapterRec, chs ≠ [] →
      ((updateLast chs (fun ch => { ch with lessons := ch.lessons ++ [les] })).map
          (fun c => c.lessons.length)).sum =
        ((chs.map (fun c => c.lessons.length)).sum) + 1 := by
  intro chs
  induction chs with
  | nil => intro h; exact absurd rfl h
  | cons x xs ih =>
    intro _
    cases xs with
    | nil => simp [updateLast]
    | cons y ys =>
      simp only [updateLast, List.map_cons, List.sum_cons]
      rw [ih (by simp)]
      simp only [List.map_cons, List.sum_cons]
      omega

lemma weeksLessons_update (w : Int) (les : LessonRec) :
    ∀ ws : List (Int × WeekRec), ∀ wk, lookupWeek ws w = some wk → wk.chapters ≠ [] →
      ((updateWeek ws w (fun wk2 =>
          { wk2 with chapters := updateLast wk2.chapters (fun ch =>
              { ch with lessons := ch.lessons ++ [les] }) })).map
        (fun p => ((p.2.chapters.map (fun c => c.lessons.length)).sum))).sum =
      ((ws.map (fun p => ((p.2.chapters.map (fun c => c.lessons.length)).sum))).sum) + 1 := by
  intro ws
  induction ws with
  | nil => intro wk h _; simp [lookupWeek] at h
  | cons p ps ih =>
    intro wk h hch
    by_cases hp : p.1 = w
    · have hwk : wk = p.2 := by
        unfold lookupWeek at h
        rw [List.find?_cons_of_pos _ (by simp [hp])] at h
        simp at h
        exact h.symm
      subst hwk
      simp only [updateWeek, if_pos hp, List.map_cons, List.sum_cons]
      rw [updateLast_append_lesson les p.2.chapters hch]
      omega
    · have h2 : lookupWeek ps w = some wk := by
        unfold lookupWeek at h ⊢
        rw [List.find?_cons_of_neg _ (by simp [hp])] at h
        exact h
      simp only [updateWeek, if_neg hp, List.map_cons, List.sum_cons]
      rw [ih wk h2 hch]
      omega

/-- C10 (corrected): a lesson record is attached if and only if the
week cursor is truthy (set and non-zero) and that week already holds
at least one chapter; a lesson arriving when the cursor is unset,
zero, or the current week has no chapters is silently dropped with no
warning, and an attachment grows the model's lesson count by exactly
one. -/
theorem lesson_append_condition :
  ∀ (s : ParseState) (r : Row),
    (s.current_week = none → lessonPhase s r = .ok s) ∧
    (s.current_week = some 0 → lessonPhase s r = .ok s) ∧
    (∀ w wk, s.current_week = some w → w ≠ 0 → lookupWeek s.weeks w = some wk →
      wk.chapters = [] → lessonPhase s r = .ok s) ∧
    (∀ w wk, s.current_week = some w → w ≠ 0 → lookupWeek s.weeks w = some wk →
      wk.chapters ≠ [] →
      lessonPhase s r = .ok (appendLessonToWeek s w ⟨r.lesson_title, r.outcome, r.time⟩) ∧
      totalLessons (appendLessonToWeek s w ⟨r.lesson_title, r.outcome, r.time⟩) =
        totalLessons s + 1) := by
  intro s r
  refine ⟨?_, ?_, ?_, ?_⟩
  · intro h
    unfold lessonPhase
    rw [h]
  · intro h
    unfold lessonPhase
    rw [h]
    simp
  · intro w wk hcw hw0 hlk hch
    unfold lessonPhase
    rw [hcw]
    dsimp only
    rw [if_neg hw0, hlk]
    dsimp only
    rw [if_pos (by simp [hch])]
  · intro w wk hcw hw0 hlk hch
    constructor
    · unfold lessonPhase
      rw [hcw]
      dsimp only
      rw [if_neg hw0, hlk]
      dsimp only
      rw [if_neg (by simp [hch])]
    · unfold totalLessons appendLessonToWeek
      exact weeksLessons_update w ⟨r.lesson_title, r.outcome, r.time⟩ s.weeks wk hlk hch

/-- Witness for C10: with a truthy week cursor and a chaptered week,
the lesson is attached and the lesson count grows by one. -/
theorem lesson_append_condition_witness :
  lessonPhase ⟨[(1, ⟨1, "G", [⟨1, "T", "g", []⟩]⟩)], some 1, some 1, 0⟩
      ⟨Cell.blank, "", Cell.blank, "", "", "L", Cell.blank, "o"⟩ =
    .ok (appendLessonToWeek ⟨[(1, ⟨1, "G", [⟨1, "T", "g", []⟩]⟩)], some 1, some 1, 0⟩ 1
      ⟨"L", "o", Cell.blank⟩) ∧
  totalLessons (appendLessonToWeek ⟨[(1, ⟨1, "G", [⟨1, "T", "g", []⟩]⟩)], some 1, some 1, 0⟩ 1
      ⟨"L", "o", Cell.blank⟩) = 1 := by
  have h := (lesson_append_condition ⟨[(1, ⟨1, "G", [⟨1, "T", "g", []⟩]⟩)], some 1, some 1, 0⟩
    ⟨Cell.blank, "", Cell.blank, "", "", "L", Cell.blank, "o"⟩).2.2.2 1 ⟨1, "G", [⟨1, "T", "g", []⟩]⟩
    rfl (by decide) rfl (by simp)
  exact ⟨h.1, h.2⟩

/-- Counterexample for C10: the single row establishes week 0 with one
chapter, yet its non-blank lesson is dropped because the append guard
tests Python truthiness of the cursor, under which week number 0 is
falsy; no warning is emitted and the model holds zero lessons against
one non-blank lesson row. -/
theorem lesson_append_truthiness_counterexample :
  read_xlsx [⟨Cell.str "0", "G", Cell.str "1", "cg", "CT", "L", Cell.blank, "out"⟩] =
    .ok ⟨[(0, ⟨0, "G", [⟨1, "CT", "cg", []⟩]⟩)], some 0, some 1, 0⟩ ∧
  (⟨Cell.str "0", "G", Cell.str "1", "cg", "CT", "L", Cell.blank, "out"⟩ : Row).lesson_title ≠ "" ∧
  totalLessons ⟨[(0, ⟨0, "G", [⟨1, "CT", "cg", []⟩]⟩)], some 0, some 1, 0⟩ = 0 := by
  exact ⟨rfl, by decide, rfl⟩

/-! ## Claim C2: unit order and lesson flattening -/

lemma foldl_lessons (ls : List LessonRec) :
    ∀ acc : List LessonOut,
      ls.foldl (fun acc2 les => match processLesson les with
        | none => acc2
        | some o => acc2 ++ [o]) acc = acc ++ ls.filterMap processLesson := by
  induction ls with
  | nil => intro acc; simp
  | cons x xs ih =>
    intro acc
    cases h : processLesson x with
    | none => simp [List.foldl_cons, h, ih, List.filterMap_cons]
    | some o => simp [List.foldl_cons, h, ih, List.filterMap_cons]

lemma weekLessonsOut_flatten (chapters : List ChapterRec) :
    weekLessonsOut chapters =
      ((chapters.map ChapterRec.lessons).flatten).filterMap processLesson := by
  suffices h : ∀ acc : List LessonOut,
      chapters.foldl (fun acc ch =>
        ch.lessons.foldl (fun acc2 les => match processLesson les with
          | none => acc2
          | some o => acc2 ++ [o]) acc) acc =
      acc ++ ((chapters.map ChapterRec.lessons).flatten).filterMap processLesson by
    simpa [weekLessonsOut] using h []
  induction chapters with
  | nil => intro acc; simp
  | cons c cs ih =>
    intro acc
    rw [List.foldl_cons, foldl_lessons, ih]
    simp [List.filterMap_append, List.append_assoc]

/-- C2 (corrected): the exported units are produced in ascending
week-number order (a sorted permutation of the keys of the parsed
model), not in raw insertion order; within each unit the lessons are
the order-preserving processing of the flattened concatenation of
that Week's Chapters' Lessons. -/
theorem maestro_units_sorted_order :
  ∀ weeks_data : List (Int × WeekRec),
    List.Sorted (· ≤ ·) (sortedWeekKeys weeks_data) ∧
    (sortedWeekKeys weeks_data).Perm (weeks_data.map Prod.fst) ∧
    generate_maestro_units weeks_data =
      (sortedWeekKeys weeks_data).filterMap
        (fun k => (lookupWeek weeks_data k).map unitOfWeek) ∧
    (∀ w : WeekRec, (unitOfWeek w).lessons =
      ((w.chapters.map ChapterRec.lessons).flatten).filterMap processLesson) := by
  intro wd
  refine ⟨?_, ?_, rfl, ?_⟩
  · exact List.sorted_insertionSort (· ≤ ·) (wd.map Prod.fst)
  · exact List.perm_insertionSort (· ≤ ·) (wd.map Prod.fst)
  · intro w
    exact weekLessonsOut_flatten w.chapters

/-- Counterexample for C2: a parsed model whose weeks were encountered
in the order 2, 1 is exported with the units sorted as 1, 2, not in
encounter order. -/
theorem units_insertion_order_counterexample :
  generate_maestro_units [(2, ⟨2, "B: d2", []⟩), (1, ⟨1, "A: d1", []⟩)] ≠
    [(2, (⟨2, "B: d2", []⟩ : WeekRec)), (1, ⟨1, "A: d1", []⟩)].map
      (fun p => unitOfWeek p.2) ∧
  (generate_maestro_units [(2, ⟨2, "B: d2", []⟩), (1, ⟨1, "A: d1", []⟩)]).map
      UnitOut.title = ["A", "B"] ∧
  ([(2, (⟨2, "B: d2", []⟩ : WeekRec)), (1, ⟨1, "A: d1", []⟩)].map
      (fun p => (unitOfWeek p.2).title)) = ["B", "A"] := by
  refine ⟨by decide, by decide, by decide⟩

/-! ## Claim C1: lesson distribution -/

lemma sum_range_map (n q r : Nat) :
    ((List.range n).map (fun c => q + if c < r then 1 else 0)).sum = n * q + min r n := by
  induction n with
  | zero => simp
  | succ n ih =>
    rw [List.range_succ, List.map_append, List.sum_append]
    simp only [List.map_cons, List.map_nil, List.sum_cons, List.sum_nil]
    rw [ih, Nat.succ_mul]
    by_cases h : n < r
    · rw [if_pos h]; omega
    · rw [if_neg h]; omega

lemma chapterCounts_sum (wlc : Nat) : (chapterCounts wlc).sum = wlc := by
  unfold chapterCounts NUM_OF_CHAPTERS_PER_WEEK
  rw [sum_range_map]
  omega

lemma weekCounts_sum (total : Nat) : (weekCounts total).sum = total := by
  unfold weekCounts NUM_OF_WEEKS
  rw [sum_range_map]
  omega

lemma chapterCounts_length (wlc : Nat) :
    (chapterCounts wlc).length = NUM_OF_CHAPTERS_PER_WEEK := by
  simp [chapterCounts]

lemma weekCounts_length (total : Nat) : (weekCounts total).length = NUM_OF_WEEKS := by
  simp [weekCounts]

lemma sliceCounts_flatten :
    ∀ (cs : List Nat) (l : List α) (idx : Nat),
      (sliceCounts l cs idx).flatten = (l.drop idx).take cs.sum := by
  intro cs
  induction cs with
  | nil => intro l idx; simp [sliceCounts]
  | cons c cs ih =>
    intro l idx
    simp only [sliceCounts, List.flatten_cons, ih, List.sum_cons]
    rw [List.take_add, List.drop_drop]

lemma sliceCounts_length (cs : List Nat) :
    ∀ (l : List α) (idx : Nat), (sliceCounts l cs idx).length = cs.length := by
  induction cs with
  | nil => intro l idx; rfl
  | cons c cs ih => intro l idx; simp [sliceCounts, ih]

lemma sliceCounts_lengths :
    ∀ (cs : List Nat) (l : List α) (idx : Nat), idx + cs.sum ≤ l.length →
      (sliceCounts l cs idx).map List.length = cs := by
  intro cs
  induction cs with
  | nil => intro l idx _; rfl
  | cons c cs ih =>
    intro l idx h
    simp only [List.sum_cons] at h
    have h1 : ((l.drop idx).take c).length = c := by
      simp only [List.length_take, List.length_drop]
      omega
    simp only [sliceCounts, List.map_cons, h1, ih l (idx + c) (by omega)]

lemma distWeeksFrom_length (l : List α) :
    ∀ (wcs : List Nat) (w idx : Nat),
      (distWeeksFrom l w wcs idx).length = wcs.length := by
  intro wcs
  induction wcs with
  | nil => intro w idx; rfl
  | cons wc rest ih => intro w idx; simp [distWeeksFrom, ih]

lemma distWeeksFrom_keys (l : List α) :
    ∀ (wcs : List Nat) (w idx : Nat),
      (distWeeksFrom l w wcs idx).map Prod.fst = List.range' w wcs.length := by
  intro wcs
  induction wcs with
  | nil => intro w idx; rfl
  | cons wc rest ih =>
    intro w idx
    simp [distWeeksFrom, ih, List.range'_succ]

lemma distWeeksFrom_chapters (l : List α) :
    ∀ (wcs : List Nat) (w idx : Nat) (p : Nat × List (List α)),
      p ∈ distWeeksFrom l w wcs idx → p.2.length = NUM_OF_CHAPTERS_PER_WEEK := by
  intro wcs
  induction wcs with
  | nil => intro w idx p h; simp [distWeeksFrom] at h
  | cons wc rest ih =>
    intro w idx p h
    simp only [distWeeksFrom, List.mem_cons] at h
    rcases h with h | h
    · subst h
      rw [sliceCounts_length, chapterCounts_length]
    · exact ih _ _ p h

lemma distWeeksFrom_flatten (l : List α) :
    ∀ (wcs : List Nat) (w idx : Nat),
      ((distWeeksFrom l w wcs idx).map (fun p => p.2.flatten)).flatten =
        (l.drop idx).take wcs.sum := by
  intro wcs
  induction wcs with
  | nil => intro w idx; simp [distWeeksFrom]
  | cons wc rest ih =>
    intro w idx
    simp only [distWeeksFrom, List.map_cons, List.flatten_cons, ih, List.sum_cons,
      sliceCounts_flatten, chapterCounts_sum]
    rw [List.take_add, List.drop_drop]

lemma distWeeksFrom_shape (l : List α) :
    ∀ (wcs : List Nat) (w idx : Nat), idx + wcs.sum ≤ l.length →
      (distWeeksFrom l w wcs idx).map (fun p => p.2.map List.length) =
        wcs.map chapterCounts := by
  intro wcs
  induction wcs with
  | nil => intro w idx _; rfl
  | cons wc rest ih =>
    intro w idx h
    simp only [List.sum_cons] at h
    have h1 : (sliceCounts l (chapterCounts wc) idx).map List.length = chapterCounts wc := by
      apply sliceCounts_lengths
      rw [chapterCounts_sum]
      omega
    simp only [distWeeksFrom, List.map_cons, h1, chapterCounts_sum]
    rw [ih _ (idx + wc) (by omega)]

/-- C1 (confirmed): `distribute_lessons` always yields the mapping
with weeks keyed 1 to NUM_OF_WEEKS, each holding exactly
NUM_OF_CHAPTERS_PER_WEEK chapters; the in-order concatenation of all
chapters of all weeks is the input list; week `i` (0-based) holds
`total / NUM_OF_WEEKS` lessons plus one when `i < total mod
NUM_OF_WEEKS`; and within a week of `wlc` lessons, chapter `j`
(0-based) holds `wlc / NUM_OF_CHAPTERS_PER_WEEK` lessons plus one
when `j < wlc mod NUM_OF_CHAPTERS_PER_WEEK`. -/
theorem distribute_lessons_spec (lessons : List α) :
  (distribute_lessons lessons).length = NUM_OF_WEEKS ∧
  (distribute_lessons lessons).map Prod.fst = List.range' 1 NUM_OF_WEEKS ∧
  (∀ p ∈ distribute_lessons lessons, p.2.length = NUM_OF_CHAPTERS_PER_WEEK) ∧
  ((distribute_lessons lessons).map (fun p => p.2.flatten)).flatten = lessons ∧
  (distribute_lessons lessons).map (fun p => p.2.map List.length) =
    (weekCounts lessons.length).map chapterCounts ∧
  (∀ i, i < NUM_OF_WEEKS →
    (weekCounts lessons.length)[i]? =
      some (lessons.length / NUM_OF_WEEKS +
        if i < lessons.length % NUM_OF_WEEKS then 1 else 0)) ∧
  (∀ wlc j, j < NUM_OF_CHAPTERS_PER_WEEK →
    (chapterCounts wlc)[j]? =
      some (wlc / NUM_OF_CHAPTERS_PER_WEEK +
        if j < wlc % NUM_OF_CHAPTERS_PER_WEEK then 1 else 0)) := by
  refine ⟨?_, ?_, ?_, ?_, ?_, ?_, ?_⟩
  · rw [distribute_lessons, distWeeksFrom_length, weekCounts_length]
  · rw [distribute_lessons, distWeeksFrom_keys, weekCounts_length]
  · intro p hp
    exact distWeeksFrom_chapters lessons _ _ _ p hp
  · rw [distribute_lessons, distWeeksFrom_flatten, weekCounts_sum, List.drop_zero,
      List.take_length]
  · rw [distribute_lessons, distWeeksFrom_shape]
    rw [weekCounts_sum]
    omega
  · intro i hi
    simp [weekCounts, List.getElem?_map, List.getElem?_range, hi]
  · intro wlc j hj
    simp [chapterCounts, List.getElem?_map, List.getElem?_range, hj]

/-- Witness for C1 at the 23-lesson example of the specification:
4 weeks, flattening restores the input, week 1 holds 6 lessons split
2,1,1,1,1 over its 5 chapters. -/
theorem distribute_lessons_spec_witness :
  (distribute_lessons (List.range 23)).length = 4 ∧
  ((distribute_lessons (List.range 23)).map (fun p => p.2.flatten)).flatten =
    List.range 23 ∧
  ((1, [[0, 1], [2], [3], [4], [5]]) :
      Nat × List (List Nat)).2.length = 5 ∧
  (weekCounts 23)[0]? = some 6 ∧
  (chapterCounts 6)[0]? = some 2 := by
  have h := distribute_lessons_spec (List.range 23)
  refine ⟨h.1, h.2.2.2.1, ?_, ?_, ?_⟩
  · exact h.2.2.1 ((1, [[0, 1], [2], [3], [4], [5]])) (by decide)
  · simpa using h.2.2.2.2.2.1 0 (by decide)
  · simpa using h.2.2.2.2.2.2 6 0 (by decide)
